import Mathlib

/-!
Verification of the CharmVault vault transaction-construction pipeline.

The definitions below are a shallow embedding of the TypeScript sources of
the repository (CharmVault-Frontend/src/services): the UTXO lock registry
(utxoLockService.ts), the funding selector and vault operation orchestrator
(vaultService.ts), the spell assembler (spellBuilder.ts) and the PSBT
finalization helper (psbtHelper.ts).  JavaScript numbers that only ever hold
integers (satoshi values, block heights, epoch milliseconds, percentages)
are embedded as `Int`; `Math.floor(x / d)` for a positive literal divisor
`d` is `Int` division (`/` on `Int` is Euclidean division, which rounds
toward negative infinity when the divisor is positive, exactly like
`Math.floor`).  External collaborators (wallet, prover, node RPC, block
explorer) are passed in as explicit parameters, with fallible calls
returning `Except`.
-/

/-- A beneficiary entry (types/charms.ts `Beneficiary`): an address and an
integer percentage share. -/
structure Beneficiary where
  address : String
  percentage : Int
  deriving Repr, DecidableEq

/-- A UTXO (types/charms.ts `UTXO`), value in satoshis. -/
structure UTXO where
  txid : String
  vout : Nat
  value : Int
  scriptPubKey : String
  deriving Repr, DecidableEq

/-- Vault status enumeration (types/charms.ts `InheritanceStatus`). -/
inductive InheritanceStatus where
  | Active
  | Triggered
  | Distributed
  deriving Repr, DecidableEq

/-- The contract-state object committed on chain (types/charms.ts
`InheritanceContent`). -/
structure InheritanceContent where
  owner_pubkey : String
  last_checkin_block : Int
  trigger_delay_blocks : Int
  beneficiaries : List Beneficiary
  status : InheritanceStatus
  deriving Repr, DecidableEq

/-- A spell input (types/charms.ts `SpellInput`): the `charms` map holds at
most the single key `$00`, so it is embedded as an `Option`. -/
structure SpellInput where
  utxo_id : String
  charms : Option InheritanceContent
  deriving Repr, DecidableEq

/-- A spell output (types/charms.ts `SpellOutput`); `charms = none` means no
contract state is attached to the output. -/
structure SpellOutput where
  address : String
  sats : Int
  charms : Option InheritanceContent
  deriving Repr, DecidableEq

/-- A spell (types/charms.ts `SpellJSON`); the `apps` map always holds the
single key `$00`, embedded as the bare app-reference string. -/
structure Spell where
  version : Nat
  apps : String
  ins : List SpellInput
  outs : List SpellOutput
  private_inputs : Option String
  deriving Repr, DecidableEq

/-- The client-side vault record (types/charms.ts `Vault`), restricted to the
fields the services read or write; display-only fields (`type`, `unlockDate`,
`createdAt`, `transactions`) and the floating-point `lockedBTC` mirror are
omitted — the satoshi value recovered from `lockedBTC` is passed explicitly
where needed. -/
structure Vault where
  id : String
  status : InheritanceStatus
  unlockBlock : Int
  createdBlock : Int
  beneficiaries : List Beneficiary
  ownerPubkey : String
  triggerDelayBlocks : Int
  deriving Repr, DecidableEq

/-- Structured error codes of `CharmVaultError` (types/charms.ts) as thrown
by vaultService.ts. -/
inductive VaultErrorCode where
  | validationError
  | walletNotConnected
  | insufficientFunds
  | duplicateUTXO
  | createVaultError
  | vaultNotFound
  | invalidVaultStatus
  | vaultLocked
  | checkinError
  | updateError
  | distributeError
  deriving Repr, DecidableEq

/-! ## UTXO lock registry (utxoLockService.ts)

The registry state is the JSON array persisted under the
`charmvault_locked_utxos` localStorage key; `Date.now()` is passed in as the
explicit `now` parameter.  The `save`/`load` round trip through localStorage
is the identity in this embedding (storage failures are caught in the source
and fall back to the empty list; they are outside the claims considered
here). -/

/-- A lock record (utxoLockService.ts `LockedUTXO`). -/
structure LockedUTXO where
  utxoId : String
  lockedAt : Int
  lockType : String
  expiresAt : Int
  deriving Repr, DecidableEq

/-- `LOCK_TIMEOUT = 15 * 60 * 1000` (15 minutes in milliseconds). -/
def LOCK_TIMEOUT : Int := 15 * 60 * 1000

/-- `lockUTXO` (utxoLockService.ts lines 25-48): a no-op if a record with the
same id already exists, otherwise pushes a record expiring at
`now + LOCK_TIMEOUT`. -/
def lockUTXO (now : Int) (utxoId lockType : String)
    (locks : List LockedUTXO) : List LockedUTXO :=
  match locks.find? (fun u => u.utxoId == utxoId) with
  | some _ => locks
  | none =>
      locks ++ [{ utxoId := utxoId, lockedAt := now, lockType := lockType,
                  expiresAt := now + LOCK_TIMEOUT }]

/-- `unlockUTXO` (utxoLockService.ts lines 54-65): removes every record with
the given id (a warning no-op when none is present — the filtered list is
then unchanged). -/
def unlockUTXO (utxoId : String) (locks : List LockedUTXO) : List LockedUTXO :=
  locks.filter (fun u => u.utxoId != utxoId)

/-- `isLocked` (utxoLockService.ts lines 72-89): finds the record for the id;
absent means unlocked; an expired record (`now >= expiresAt`) is eagerly
evicted via `unlockUTXO` and reported unlocked.  Returns the boolean answer
together with the registry state after the call. -/
def isLocked (now : Int) (utxoId : String)
    (locks : List LockedUTXO) : Bool × List LockedUTXO :=
  match locks.find? (fun u => u.utxoId == utxoId) with
  | none => (false, locks)
  | some lock =>
      if lock.expiresAt ≤ now then (false, unlockUTXO utxoId locks)
      else (true, locks)

/-- `clearExpiredLocks` (utxoLockService.ts lines 104-120): keeps exactly the
records that have not yet expired. -/
def clearExpiredLocks (now : Int) (locks : List LockedUTXO) : List LockedUTXO :=
  locks.filter (fun lock => !(lock.expiresAt ≤ now))

/-- Number of lock records held for a given id. -/
def countRecords (utxoId : String) (locks : List LockedUTXO) : Nat :=
  (locks.filter (fun u => u.utxoId == utxoId)).length

/-! ## Spell assembler (spellBuilder.ts)

The app reference is `"n/" ++ appId ++ "/" ++ appVk` where `appId` is the
SHA-256 of the funding utxo id (proverClient.ts); the hash is outside this
embedding, so the finished reference string is passed in as the `appRef`
parameter everywhere the source computes it. -/

/-- `formatUtxoId` (spellBuilder.ts lines 253-255). -/
def formatUtxoId (txid : String) (vout : Nat) : String :=
  txid ++ ":" ++ toString vout

/-- Character-level `split(':')`, structurally recursive so that concrete
runs evaluate. -/
def splitCharsOnColon : List Char → List (List Char)
  | [] => [[]]
  | c :: cs =>
      let rest := splitCharsOnColon cs
      if c = ':' then [] :: rest
      else
        match rest with
        | [] => [[c]]
        | r :: rs => (c :: r) :: rs

/-- Accumulate the value of a decimal digit string. -/
def digitsVal : List Char → Nat → Nat
  | [], acc => acc
  | c :: rest, acc => digitsVal rest (acc * 10 + (c.toNat - 48))

/-- Decimal `parseInt(s, 10)` on a whole string: `none` models `NaN`. -/
def parseIntDecimal (s : String) : Option Nat :=
  match s.data with
  | [] => none
  | cs => if cs.all Char.isDigit then some (digitsVal cs 0) else none

/-- `parseUtxoId` (spellBuilder.ts lines 242-248): `split(':')` then
`parseInt`, embedded character-wise with fallback 0 for `NaN` (all ids fed
to it in the services are well-formed `"txid:vout"` strings). -/
def parseUtxoId (utxoId : String) : String × Nat :=
  let parts := (splitCharsOnColon utxoId.data).map (fun cs => String.mk cs)
  (parts.headD "", (parseIntDecimal (parts.getD 1 "")).getD 0)

/-- `validateBeneficiaries` (spellBuilder.ts lines 218-221): the reduce-sum
of the percentages must equal exactly 100. -/
def validateBeneficiaries (beneficiaries : List Beneficiary) : Bool :=
  (beneficiaries.foldl (fun sum b => sum + b.percentage) 0) == 100

/-- `buildCreateVaultSpell` (spellBuilder.ts lines 17-60): one input
referencing the funding UTXO with no charm (`charms = {}` in the source),
one output carrying the fresh contract state with `last_checkin_block = 0`. -/
def buildCreateVaultSpell (appRef : String) (amount : Int) (fundingUTXO : UTXO)
    (ownerPubkey : String) (beneficiaries : List Beneficiary)
    (triggerDelayBlocks : Int) (changeAddress : String) : Spell :=
  let fundingUtxoId := formatUtxoId fundingUTXO.txid fundingUTXO.vout
  let inheritanceContent : InheritanceContent :=
    { owner_pubkey := ownerPubkey
      last_checkin_block := 0
      trigger_delay_blocks := triggerDelayBlocks
      beneficiaries := beneficiaries
      status := InheritanceStatus.Active }
  { version := 8
    apps := appRef
    ins := [{ utxo_id := fundingUtxoId, charms := none }]
    outs := [{ address := changeAddress, sats := amount,
               charms := some inheritanceContent }]
    private_inputs := some fundingUtxoId }

/-- `buildCheckinSpell` (spellBuilder.ts lines 65-106): input carries the
existing charm, output carries the charm with `last_checkin_block` advanced
to the current block, value less the fixed 2000-sat fee reserve. -/
def buildCheckinSpell (appRef : String) (vaultUTXO : UTXO)
    (vaultCharm : InheritanceContent) (ownerPubkey : String)
    (currentBlock : Int) (changeAddress : String) : Spell :=
  let fundingUtxoId := formatUtxoId vaultUTXO.txid vaultUTXO.vout
  let updatedCharm : InheritanceContent :=
    { vaultCharm with last_checkin_block := currentBlock,
                      owner_pubkey := ownerPubkey }
  { version := 8
    apps := appRef
    ins := [{ utxo_id := fundingUtxoId, charms := some vaultCharm }]
    outs := [{ address := changeAddress, sats := vaultUTXO.value - 2000,
               charms := some updatedCharm }]
    private_inputs := none }

/-- `buildUpdateBeneficiariesSpell` (spellBuilder.ts lines 111-162): same
shape as check-in, additionally replacing the beneficiary list. -/
def buildUpdateBeneficiariesSpell (appRef : String) (vaultUTXO : UTXO)
    (vaultCharm : InheritanceContent) (newBeneficiaries : List Beneficiary)
    (ownerPubkey : String) (currentBlock : Int) (changeAddress : String) : Spell :=
  let fundingUtxoId := formatUtxoId vaultUTXO.txid vaultUTXO.vout
  let updatedCharm : InheritanceContent :=
    { vaultCharm with beneficiaries := newBeneficiaries,
                      last_checkin_block := currentBlock,
                      owner_pubkey := ownerPubkey }
  { version := 8
    apps := appRef
    ins := [{ utxo_id := fundingUtxoId, charms := some vaultCharm }]
    outs := [{ address := changeAddress, sats := vaultUTXO.value - 2000,
               charms := some updatedCharm }]
    private_inputs := none }

/-- `buildDistributeSpell` (spellBuilder.ts lines 167-213): throws when
`currentBlock <= last_checkin_block + trigger_delay_blocks`; otherwise one
output per beneficiary of `Math.floor((value - 2000) * percentage / 100)`
sats with no charm attached (the token is burned).  `Math.floor` of the
division by the positive literal 100 is `Int` division. -/
def buildDistributeSpell (appRef : String) (vaultUTXO : UTXO)
    (vaultCharm : InheritanceContent) (currentBlock : Int) : Except String Spell :=
  let fundingUtxoId := formatUtxoId vaultUTXO.txid vaultUTXO.vout
  let deadline := vaultCharm.last_checkin_block + vaultCharm.trigger_delay_blocks
  if currentBlock ≤ deadline then
    Except.error ("Deadline not reached. Current block: " ++ toString currentBlock
      ++ ", Deadline: " ++ toString deadline)
  else
    let estimatedFee : Int := 2000
    let totalValue := vaultUTXO.value - estimatedFee
    let outputs := vaultCharm.beneficiaries.map (fun beneficiary =>
      { address := beneficiary.address
        sats := (totalValue * beneficiary.percentage) / 100
        charms := none : SpellOutput })
    Except.ok
      { version := 8
        apps := appRef
        ins := [{ utxo_id := fundingUtxoId, charms := some vaultCharm }]
        outs := outputs
        private_inputs := none }

/-! ## Funding selector (vaultService.ts `selectFundingUTXO`, lines 629-661) -/

/-- `FAILURE_COOLDOWN = 5 * 60 * 1000` (5 minutes, vaultService.ts line 631). -/
def FAILURE_COOLDOWN : Int := 5 * 60 * 1000

/-- An entry of the `failedUTXOs` map (vaultService.ts line 21). -/
structure FailureRecord where
  count : Nat
  lastFailed : Int
  deriving Repr, DecidableEq

/-- The filter body of `selectFundingUTXO` (vaultService.ts lines 638-657):
a UTXO qualifies when its value covers the required amount, it is not
locked, and it is not inside its failure-cooldown window.  The registry
passed here is the one already swept by `clearExpiredLocks`, so the eager
eviction inside `isLocked` has nothing left to evict and only the boolean
component matters (see `isLocked_clearExpiredLocks_snd`). -/
def utxoEligible (now requiredAmount : Int) (locks : List LockedUTXO)
    (failedUTXOs : String → Option FailureRecord) (utxo : UTXO) : Bool :=
  if utxo.value < requiredAmount then false
  else
    let utxoId := formatUtxoId utxo.txid utxo.vout
    if (isLocked now utxoId locks).1 then false
    else
      match failedUTXOs utxoId with
      | some failure =>
          if now - failure.lastFailed < FAILURE_COOLDOWN then false else true
      | none => true

/-- The JavaScript sort comparator `(a, b) => a.value - b.value`: ascending
order by value (ECMAScript sort is stable, as is `List.insertionSort`). -/
def valueLE (a b : UTXO) : Prop := a.value ≤ b.value

instance : DecidableRel valueLE := fun a b => Int.decLe a.value b.value

instance : IsTotal UTXO valueLE := ⟨fun a b => Int.le_total a.value b.value⟩

instance : IsTrans UTXO valueLE := ⟨fun _ _ _ hab hbc => le_trans hab hbc⟩

/-- `selectFundingUTXO` (vaultService.ts lines 629-661): sweep expired
locks, filter the candidates, sort ascending by value and take the first
(`suitableUTXOs[0] || null`).  Returns the choice together with the
registry state after the sweep. -/
def selectFundingUTXO (now requiredAmount : Int) (locks : List LockedUTXO)
    (failedUTXOs : String → Option FailureRecord) (utxos : List UTXO) :
    Option UTXO × List LockedUTXO :=
  let locks1 := clearExpiredLocks now locks
  let suitableUTXOs :=
    (utxos.filter (utxoEligible now requiredAmount locks1 failedUTXOs)).insertionSort
      valueLE
  (suitableUTXOs.head?, locks1)

/-! ## PSBT finalization (psbtHelper.ts `extractTxFromPsbt`, lines 145-214)

A PSBT input is embedded by the fields the helper reads, plus two fields
abstracting the bitcoinjs-lib library call `finalizeInput`: whether the
standard finalizer recognizes the input (`canStandardFinalize`) and the
witness bytes it would attach (`standardWitness`).  Witness byte strings are
`List Nat`. -/

/-- A detached signature + pubkey pair (the PSBT `partialSig` field). -/
structure SigPubkeyPair where
  signature : List Nat
  pubkey : List Nat
  deriving Repr, DecidableEq

/-- A PSBT input as read by `extractTxFromPsbt`; `sigPairs` embeds the PSBT
`partialSig` list. -/
structure PsbtInput where
  finalScriptWitness : Option (List Nat)
  finalScriptSig : Option (List Nat)
  tapKeySig : Option (List Nat)
  sigPairs : List SigPubkeyPair
  canStandardFinalize : Bool
  standardWitness : List Nat
  deriving Repr, DecidableEq

/-- Serialized witness stack: element count, then each element's length
followed by its bytes — the layout produced by the source's
`Buffer.concat` calls. -/
def encodeWitnessStack (elems : List (List Nat)) : List Nat :=
  elems.length :: elems.foldr (fun e acc => e.length :: e ++ acc) []

/-- The manual Taproot key-path witness (psbtHelper.ts lines 181-187):
`Buffer.concat([[0x01], [sig.length], sig])` — a single-element stack
holding just the signature. -/
def manualTaprootWitness (sig : List Nat) : List Nat :=
  1 :: sig.length :: sig

/-- The manual legacy-segwit witness (psbtHelper.ts lines 191-200):
`Buffer.concat([[0x02], [sig.length], sig, [pubkey.length], pubkey])` — a
two-element stack of signature then pubkey. -/
def manualSegwitWitness (sig pubkey : List Nat) : List Nat :=
  2 :: sig.length :: sig ++ pubkey.length :: pubkey

/-- An input already carries final script data (psbtHelper.ts line 166). -/
def alreadyFinalized (input : PsbtInput) : Bool :=
  input.finalScriptWitness.isSome || input.finalScriptSig.isSome

/-- An input that `psbt.finalizeAllInputs()` handles without the fallback:
already finalized or recognized by the standard finalizer. -/
def standardOk (input : PsbtInput) : Bool :=
  alreadyFinalized input || input.canStandardFinalize

/-- Standard finalization of one input (the bitcoinjs `finalizeInput`
success case). -/
def finalizeStandard (input : PsbtInput) : PsbtInput :=
  if alreadyFinalized input then input
  else { input with finalScriptWitness := some input.standardWitness }

/-- One iteration of the fallback loop (psbtHelper.ts lines 163-206): skip
finalized inputs, retry standard finalization, then manual Taproot key-path
witness from `tapKeySig`, then manual segwit witness from the first
signature pair, else the `UnfinalizableInput` failure
(`Unable to finalize input: no signature found`). -/
def finalizeInputFallback (input : PsbtInput) : Except String PsbtInput :=
  if alreadyFinalized input then Except.ok input
  else if input.canStandardFinalize then
    Except.ok { input with finalScriptWitness := some input.standardWitness }
  else
    match input.tapKeySig with
    | some sig =>
        Except.ok { input with
          finalScriptWitness := some (manualTaprootWitness sig) }
    | none =>
        match input.sigPairs with
        | p :: _ =>
            Except.ok { input with
              finalScriptWitness := some (manualSegwitWitness p.signature p.pubkey) }
        | [] => Except.error "Unable to finalize input: no signature found"

/-- The fallback loop of `extractTxFromPsbt` (psbtHelper.ts lines 163-206)
over the whole input list, failing at the first unfinalizable input.  (When
`finalizeAllInputs` throws midway, the inputs it already finalized are
skipped by the loop's already-finalized check and the others re-enter
standard-then-manual finalization, so the per-input result is the same as
running the fallback on every input.) -/
def finalizeAllFallback : List PsbtInput → Except String (List PsbtInput)
  | [] => Except.ok []
  | i :: rest =>
      match finalizeInputFallback i with
      | Except.error e => Except.error e
      | Except.ok o =>
          match finalizeAllFallback rest with
          | Except.error e => Except.error e
          | Except.ok os => Except.ok (o :: os)

/-- `extractTxFromPsbt` (psbtHelper.ts lines 145-214) at the level of the
input list: `finalizeAllInputs` succeeds when every input is standard; when
it throws, the per-input fallback loop runs over all inputs. -/
def extractTxFromPsbt (inputs : List PsbtInput) : Except String (List PsbtInput) :=
  if inputs.all standardOk then Except.ok (inputs.map finalizeStandard)
  else finalizeAllFallback inputs

/-! ## Vault operation orchestrator (vaultService.ts)

Each operation is embedded as a function of an environment of external-call
results (`Except`-valued fields for the fallible collaborators) that
returns the operation result together with the ordered list of observable
events: lock/unlock of the registry, network calls, `broadcastPackage`
invocations with their exact hex arguments, and persistence of the vault
record.  The `failedUTXOs` cooldown map is read during selection; its
mutation by `markUTXOFailed` in the outer catch does not touch the lock
registry and is not modelled. -/

/-- Observable events of a vault operation run; `proveEv` records the spell
handed to the prover and `broadcastEv` the exact hex pair handed to
`broadcastPackage`. -/
inductive Event where
  | lockEv (utxoId : String)
  | unlockEv (utxoId : String)
  | netcall (name : String)
  | proveEv (spell : Spell)
  | broadcastEv (commitTx spellTx : String)
  | persistEv (vaultId : String)
  deriving Repr, DecidableEq

/-- The spell-transaction hex arguments of the `broadcastPackage` calls in a
trace, in order. -/
def broadcastSpellArgs (trace : List Event) : List String :=
  trace.filterMap (fun e =>
    match e with
    | Event.broadcastEv _ spellTx => some spellTx
    | _ => none)

/-- `error.message?.includes(pat)`: splitting on an occurring pattern yields
more than one part. -/
def messageIncludes (msg pat : String) : Bool :=
  (msg.splitOn pat).length != 1

/-- The outer catch of `createVault` (vaultService.ts lines 281-300):
a prover message containing `"duplicate funding UTXO"` becomes
`DUPLICATE_UTXO`; other non-`CharmVaultError` failures are wrapped as
`CREATE_VAULT_ERROR`. -/
def classifyCreateError (message : String) : VaultErrorCode :=
  if messageIncludes message "duplicate funding UTXO" then
    VaultErrorCode.duplicateUTXO
  else VaultErrorCode.createVaultError

/-- External-call results for the create-vault sequence. -/
structure CreateEnv where
  currentBlock : Except String Int
  halfHourFee : Except String Int
  prevTxHex : Except String String
  proverResponse : Except String (String × String)
  directBroadcast : Except String String
  convertPsbt : String → String → Nat → Except String String
  walletSign : String → Except String String
  extractPsbt : String → Except String String
  fallbackBroadcast : Except String String

/-- The inner try of `createVault` (vaultService.ts lines 95-233): block
height, fee estimate, spell assembly, previous transaction, prover call,
then broadcast — direct first with the prover pair as-is, and on failure
the wallet-signing fallback, which converts / signs / re-extracts only the
commit transaction and resubmits the untouched spell transaction
(`signedSpellTx = spellTx`, line 227).  Returns the result (txid and
current block) and the event list; the registry is never touched here. -/
def createVaultInner (env : CreateEnv) (appRef : String) (amount : Int)
    (fundingUTXO : UTXO) (ownerPubkey : String)
    (beneficiaries : List Beneficiary) (triggerDelayBlocks : Int)
    (changeAddress : String) : Except String (String × Int) × List Event :=
  match env.currentBlock with
  | Except.error e => (Except.error e, [Event.netcall "getCurrentBlockHeight"])
  | Except.ok currentBlock =>
    let evs1 := [Event.netcall "getCurrentBlockHeight",
                 Event.netcall "getFeeEstimates"]
    match env.halfHourFee with
    | Except.error e => (Except.error e, evs1)
    | Except.ok _feeRate =>
      let spell := buildCreateVaultSpell appRef amount fundingUTXO
        ownerPubkey beneficiaries triggerDelayBlocks changeAddress
      let evs2 := evs1 ++ [Event.netcall "getRawTransaction"]
      match env.prevTxHex with
      | Except.error e => (Except.error e, evs2)
      | Except.ok prevTxHex =>
        let evs3 := evs2 ++ [Event.proveEv spell]
        match env.proverResponse with
        | Except.error e => (Except.error e, evs3)
        | Except.ok (commitTx, spellTxOriginal) =>
          let spellTx := spellTxOriginal
          let evs4 := evs3 ++ [Event.broadcastEv commitTx spellTx]
          match env.directBroadcast with
          | Except.ok vaultTxid => (Except.ok (vaultTxid, currentBlock), evs4)
          | Except.error _broadcastError =>
            match env.convertPsbt commitTx prevTxHex fundingUTXO.vout with
            | Except.error e => (Except.error e, evs4)
            | Except.ok commitPsbtHex =>
              match env.walletSign commitPsbtHex with
              | Except.error e => (Except.error e, evs4)
              | Except.ok signedCommitPsbt =>
                match env.extractPsbt signedCommitPsbt with
                | Except.error e => (Except.error e, evs4)
                | Except.ok signedCommitTx =>
                  let signedSpellTx := spellTx
                  let evs5 := evs4 ++ [Event.broadcastEv signedCommitTx signedSpellTx]
                  match env.fallbackBroadcast with
                  | Except.error e => (Except.error e, evs5)
                  | Except.ok vaultTxid => (Except.ok (vaultTxid, currentBlock), evs5)

/-- Completion of `createVault` after the UTXO was locked (vaultService.ts
lines 235-280): on inner success unlock, then persist the record and return
the txid; on inner failure unlock, then classify and rethrow. -/
def finishCreateVault (utxoId : String) (locks2 : List LockedUTXO)
    (inner : Except String (String × Int) × List Event) :
    Except VaultErrorCode String × List LockedUTXO × List Event :=
  match inner.1 with
  | Except.ok (vaultTxid, _currentBlock) =>
      (Except.ok vaultTxid, unlockUTXO utxoId locks2,
        Event.lockEv utxoId :: inner.2
          ++ [Event.unlockEv utxoId, Event.persistEv (vaultTxid ++ ":0")])
  | Except.error e =>
      (Except.error (classifyCreateError e), unlockUTXO utxoId locks2,
        Event.lockEv utxoId :: inner.2 ++ [Event.unlockEv utxoId])

/-- `createVault` (vaultService.ts lines 49-301): validate, require a
wallet, select a funding UTXO (sweeping expired locks), require at least
3000 sats, lock the UTXO, run the inner sequence, and unlock on both the
success path (before persisting the record and returning `spellTxid:0`)
and the failure path (before classification and rethrow).  The wallet is
`some (publicKey, address)` when connected. -/
def createVaultRun (env : CreateEnv) (appRef : String) (amount : Int)
    (beneficiaries : List Beneficiary) (triggerDelayBlocks : Int)
    (wallet : Option (String × String)) (utxos : List UTXO)
    (failedUTXOs : String → Option FailureRecord) (now : Int)
    (locks0 : List LockedUTXO) :
    Except VaultErrorCode String × List LockedUTXO × List Event :=
  if !(validateBeneficiaries beneficiaries) then
    (Except.error VaultErrorCode.validationError, locks0, [])
  else match wallet with
  | none => (Except.error VaultErrorCode.walletNotConnected, locks0, [])
  | some (publicKey, address) =>
    match selectFundingUTXO now amount locks0 failedUTXOs utxos with
    | (none, locks1) => (Except.error VaultErrorCode.insufficientFunds, locks1, [])
    | (some fundingUTXO, locks1) =>
      if fundingUTXO.value < 3000 then
        (Except.error VaultErrorCode.insufficientFunds, locks1, [])
      else
        finishCreateVault (formatUtxoId fundingUTXO.txid fundingUTXO.vout)
          (lockUTXO now (formatUtxoId fundingUTXO.txid fundingUTXO.vout)
            "creating_vault" locks1)
          (createVaultInner env appRef amount fundingUTXO publicKey
            beneficiaries triggerDelayBlocks address)

/-- Reconstruction of the contract state presented to the prover for an
existing vault: the identical object literals at vaultService.ts lines
333-339 (`checkin`), 430-436 (`updateBeneficiaries`) and 518-524
(`distribute`) — `last_checkin_block` is always the record's
`createdBlock`. -/
def rebuildVaultCharm (vault : Vault) : InheritanceContent :=
  { owner_pubkey := vault.ownerPubkey
    last_checkin_block := vault.createdBlock
    trigger_delay_blocks := vault.triggerDelayBlocks
    beneficiaries := vault.beneficiaries
    status := InheritanceStatus.Active }

/-- Vault-record mutation after a successful check-in (vaultService.ts
lines 374-377): only the unlock block (and the display date) advance. -/
def applyCheckin (vault : Vault) (currentBlock : Int) : Vault :=
  { vault with unlockBlock := currentBlock + vault.triggerDelayBlocks }

/-- Vault-record mutation after a successful beneficiary update
(vaultService.ts lines 475-479). -/
def applyUpdateBeneficiaries (vault : Vault)
    (newBeneficiaries : List Beneficiary) (currentBlock : Int) : Vault :=
  { vault with beneficiaries := newBeneficiaries,
               unlockBlock := currentBlock + vault.triggerDelayBlocks }

/-- Vault-record mutation after a successful distribution (vaultService.ts
lines 566-568). -/
def applyDistribute (vault : Vault) : Vault :=
  { vault with status := InheritanceStatus.Distributed }

/-- The record-mutating vault operations. -/
inductive VaultOp where
  | checkinOp (currentBlock : Int)
  | updateOp (newBeneficiaries : List Beneficiary) (currentBlock : Int)
  | distributeOp
  deriving Repr

/-- Apply one operation's record mutation. -/
def applyVaultOp (vault : Vault) : VaultOp → Vault
  | VaultOp.checkinOp currentBlock => applyCheckin vault currentBlock
  | VaultOp.updateOp newBeneficiaries currentBlock =>
      applyUpdateBeneficiaries vault newBeneficiaries currentBlock
  | VaultOp.distributeOp => applyDistribute vault

/-- External-call results for the operations on an existing vault. -/
structure OpEnv where
  currentBlock : Except String Int
  halfHourFee : Except String Int
  prevTxHex : Except String String
  proverResponse : Except String (String × String)
  broadcast : Except String String
  walletSign : String → Except String String

/-- `checkin` (vaultService.ts lines 306-390): status gate, wallet gate,
charm reconstruction, spell assembly, prover call, then BOTH prover
transactions are passed through the wallet's `signTransaction` (lines
367-368) and the wallet outputs are what reaches `broadcastPackage`
(line 370).  `vaultValue` is the satoshi value recovered from the record's
`lockedBTC` field (a floating-point round trip outside this embedding). -/
def checkinRun (env : OpEnv) (appRef : String) (vaultLoaded : Option Vault)
    (vaultId : String) (vaultValue : Int)
    (wallet : Option (String × String)) :
    Except VaultErrorCode String × List Event :=
  match vaultLoaded with
  | none => (Except.error VaultErrorCode.vaultNotFound, [])
  | some vault =>
    if vault.status != InheritanceStatus.Active then
      (Except.error VaultErrorCode.invalidVaultStatus, [])
    else match wallet with
    | none => (Except.error VaultErrorCode.walletNotConnected, [])
    | some (publicKey, address) =>
      let (txid, vout) := parseUtxoId vaultId
      let vaultUTXO : UTXO :=
        { txid := txid, vout := vout, value := vaultValue, scriptPubKey := "" }
      let vaultCharm := rebuildVaultCharm vault
      match env.currentBlock with
      | Except.error _ =>
          (Except.error VaultErrorCode.checkinError,
            [Event.netcall "getCurrentBlockHeight"])
      | Except.ok currentBlock =>
        let evs1 := [Event.netcall "getCurrentBlockHeight",
                     Event.netcall "getFeeEstimates"]
        match env.halfHourFee with
        | Except.error _ => (Except.error VaultErrorCode.checkinError, evs1)
        | Except.ok _feeRate =>
          let spell := buildCheckinSpell appRef vaultUTXO vaultCharm publicKey
            currentBlock address
          let evs2 := evs1 ++ [Event.netcall "getRawTransaction"]
          match env.prevTxHex with
          | Except.error _ => (Except.error VaultErrorCode.checkinError, evs2)
          | Except.ok _prevTxHex =>
            let evs3 := evs2 ++ [Event.proveEv spell]
            match env.proverResponse with
            | Except.error _ => (Except.error VaultErrorCode.checkinError, evs3)
            | Except.ok (commitTx, spellTx) =>
              match env.walletSign commitTx with
              | Except.error _ => (Except.error VaultErrorCode.checkinError, evs3)
              | Except.ok signedCommitTx =>
                match env.walletSign spellTx with
                | Except.error _ => (Except.error VaultErrorCode.checkinError, evs3)
                | Except.ok signedSpellTx =>
                  let evs4 := evs3 ++ [Event.broadcastEv signedCommitTx signedSpellTx]
                  match env.broadcast with
                  | Except.error _ => (Except.error VaultErrorCode.checkinError, evs4)
                  | Except.ok checkinTxid =>
                      (Except.ok checkinTxid,
                        evs4 ++ [Event.persistEv vault.id])

/-- `updateBeneficiaries` (vaultService.ts lines 395-492): beneficiary
validation first — before the vault is even loaded and before any network
call — then the same shape as check-in (both prover transactions pass
through the wallet, lines 465-466). -/
def updateBeneficiariesRun (env : OpEnv) (appRef : String)
    (newBeneficiaries : List Beneficiary) (vaultLoaded : Option Vault)
    (vaultId : String) (vaultValue : Int)
    (wallet : Option (String × String)) :
    Except VaultErrorCode String × List Event :=
  if !(validateBeneficiaries newBeneficiaries) then
    (Except.error VaultErrorCode.validationError, [])
  else match vaultLoaded with
  | none => (Except.error VaultErrorCode.vaultNotFound, [])
  | some vault =>
    if vault.status != InheritanceStatus.Active then
      (Except.error VaultErrorCode.invalidVaultStatus, [])
    else match wallet with
    | none => (Except.error VaultErrorCode.walletNotConnected, [])
    | some (publicKey, address) =>
      let (txid, vout) := parseUtxoId vaultId
      let vaultUTXO : UTXO :=
        { txid := txid, vout := vout, value := vaultValue, scriptPubKey := "" }
      let vaultCharm := rebuildVaultCharm vault
      match env.currentBlock with
      | Except.error _ =>
          (Except.error VaultErrorCode.updateError,
            [Event.netcall "getCurrentBlockHeight"])
      | Except.ok currentBlock =>
        let evs1 := [Event.netcall "getCurrentBlockHeight",
                     Event.netcall "getFeeEstimates"]
        match env.halfHourFee with
        | Except.error _ => (Except.error VaultErrorCode.updateError, evs1)
        | Except.ok _feeRate =>
          let spell := buildUpdateBeneficiariesSpell appRef vaultUTXO vaultCharm
            newBeneficiaries publicKey currentBlock address
          let evs2 := evs1 ++ [Event.netcall "getRawTransaction"]
          match env.prevTxHex with
          | Except.error _ => (Except.error VaultErrorCode.updateError, evs2)
          | Except.ok _prevTxHex =>
            let evs3 := evs2 ++ [Event.proveEv spell]
            match env.proverResponse with
            | Except.error _ => (Except.error VaultErrorCode.updateError, evs3)
            | Except.ok (commitTx, spellTx) =>
              match env.walletSign commitTx with
              | Except.error _ => (Except.error VaultErrorCode.updateError, evs3)
              | Except.ok signedCommitTx =>
                match env.walletSign spellTx with
                | Except.error _ => (Except.error VaultErrorCode.updateError, evs3)
                | Except.ok signedSpellTx =>
                  let evs4 := evs3 ++ [Event.broadcastEv signedCommitTx signedSpellTx]
                  match env.broadcast with
                  | Except.error _ => (Except.error VaultErrorCode.updateError, evs4)
                  | Except.ok newTxid =>
                      (Except.ok newTxid, evs4 ++ [Event.persistEv vault.id])

/-- `distribute` (vaultService.ts lines 497-581): `VAULT_LOCKED` when
`currentBlock <= vault.unlockBlock` (lines 503-508), then spell assembly
(whose own deadline check uses the reconstructed charm), prover call,
wallet gate (only after proving, lines 550-553), and again both prover
transactions pass through the wallet (lines 556-557) before
`broadcastPackage`. -/
def distributeRun (env : OpEnv) (appRef : String) (vaultLoaded : Option Vault)
    (vaultId : String) (vaultValue : Int)
    (wallet : Option (String × String)) :
    Except VaultErrorCode String × List Event :=
  match vaultLoaded with
  | none => (Except.error VaultErrorCode.vaultNotFound, [])
  | some vault =>
    match env.currentBlock with
    | Except.error _ =>
        (Except.error VaultErrorCode.distributeError,
          [Event.netcall "getCurrentBlockHeight"])
    | Except.ok currentBlock =>
      let evs0 := [Event.netcall "getCurrentBlockHeight"]
      if currentBlock ≤ vault.unlockBlock then
        (Except.error VaultErrorCode.vaultLocked, evs0)
      else
        let (txid, vout) := parseUtxoId vaultId
        let vaultUTXO : UTXO :=
          { txid := txid, vout := vout, value := vaultValue, scriptPubKey := "" }
        let vaultCharm := rebuildVaultCharm vault
        let evs1 := evs0 ++ [Event.netcall "getFeeEstimates"]
        match env.halfHourFee with
        | Except.error _ => (Except.error VaultErrorCode.distributeError, evs1)
        | Except.ok _feeRate =>
          match buildDistributeSpell appRef vaultUTXO vaultCharm currentBlock with
          | Except.error _ => (Except.error VaultErrorCode.distributeError, evs1)
          | Except.ok spell =>
            let evs2 := evs1 ++ [Event.netcall "getRawTransaction"]
            match env.prevTxHex with
            | Except.error _ => (Except.error VaultErrorCode.distributeError, evs2)
            | Except.ok _prevTxHex =>
              let evs3 := evs2 ++ [Event.proveEv spell]
              match env.proverResponse with
              | Except.error _ => (Except.error VaultErrorCode.distributeError, evs3)
              | Except.ok (commitTx, spellTx) =>
                match wallet with
                | none => (Except.error VaultErrorCode.walletNotConnected, evs3)
                | some _ =>
                  match env.walletSign commitTx with
                  | Except.error _ =>
                      (Except.error VaultErrorCode.distributeError, evs3)
                  | Except.ok signedCommitTx =>
                    match env.walletSign spellTx with
                    | Except.error _ =>
                        (Except.error VaultErrorCode.distributeError, evs3)
                    | Except.ok signedSpellTx =>
                      let evs4 := evs3
                        ++ [Event.broadcastEv signedCommitTx signedSpellTx]
                      match env.broadcast with
                      | Except.error _ =>
                          (Except.error VaultErrorCode.distributeError, evs4)
                      | Except.ok distributeTxid =>
                          (Except.ok distributeTxid,
                            evs4 ++ [Event.persistEv vault.id])

theorem countRecords_eq_zero_iff (x : String) (s : List LockedUTXO) :
    countRecords x s = 0 ↔ ∀ u ∈ s, ¬(u.utxoId == x) = true := by
  simp [countRecords, List.length_eq_zero, List.filter_eq_nil_iff]

theorem find?_eq_none_of_countRecords_zero {x : String} {s : List LockedUTXO}
    (h : countRecords x s = 0) :
    s.find? (fun u => u.utxoId == x) = none := by
  rw [List.find?_eq_none]
  exact (countRecords_eq_zero_iff x s).mp h

theorem countRecords_append (x : String) (s t : List LockedUTXO) :
    countRecords x (s ++ t) = countRecords x s + countRecords x t := by
  simp [countRecords, List.filter_append]

theorem countRecords_unlock (x : String) (s : List LockedUTXO) :
    countRecords x (unlockUTXO x s) = 0 := by
  rw [countRecords_eq_zero_iff]
  intro u hu
  have hmem := List.of_mem_filter hu
  simp only [bne_iff_ne, ne_eq] at hmem
  simp [hmem]

theorem unlockUTXO_idem (x : String) (s : List LockedUTXO) :
    unlockUTXO x (unlockUTXO x s) = unlockUTXO x s := by
  simp [unlockUTXO, List.filter_filter]

theorem lockUTXO_of_find?_some {x : String} {s : List LockedUTXO} {v : LockedUTXO}
    (h : s.find? (fun u => u.utxoId == x) = some v) (now : Int) (kind : String) :
    lockUTXO now x kind s = s := by
  simp [lockUTXO, h]

theorem lockUTXO_of_find?_none {x : String} {s : List LockedUTXO}
    (h : s.find? (fun u => u.utxoId == x) = none) (now : Int) (kind : String) :
    lockUTXO now x kind s =
      s ++ [{ utxoId := x, lockedAt := now, lockType := kind,
              expiresAt := now + LOCK_TIMEOUT }] := by
  simp [lockUTXO, h]

theorem find?_lockUTXO_ne_none (now : Int) (kind x : String) (s : List LockedUTXO) :
    (lockUTXO now x kind s).find? (fun u => u.utxoId == x) ≠ none := by
  match hm : s.find? (fun u => u.utxoId == x) with
  | some v =>
      rw [lockUTXO_of_find?_some hm, hm]
      simp
  | none =>
      rw [lockUTXO_of_find?_none hm, Ne, List.find?_eq_none]
      intro hall
      have := hall { utxoId := x, lockedAt := now, lockType := kind,
                     expiresAt := now + LOCK_TIMEOUT } (by simp)
      simp at this

theorem lockUTXO_lockUTXO (now1 now2 : Int) (kind1 kind2 x : String)
    (s : List LockedUTXO) :
    lockUTXO now2 x kind2 (lockUTXO now1 x kind1 s) = lockUTXO now1 x kind1 s := by
  match hm : (lockUTXO now1 x kind1 s).find? (fun u => u.utxoId == x) with
  | some v => exact lockUTXO_of_find?_some hm now2 kind2
  | none => exact absurd hm (find?_lockUTXO_ne_none now1 kind1 x s)

/-- Claim C7: `lock(x); lock(x)` leaves exactly one record for `x` (the
second call is a no-op), `unlock(x); unlock(x)` leaves zero records with the
second call a no-op, and a fresh lock's record has
`expiresAt = now + 15 minutes`. -/
theorem c7_lock_unlock_idempotent
    (now1 now2 : Int) (kind1 kind2 x : String) (s : List LockedUTXO) :
    (countRecords x s = 0 →
      lockUTXO now1 x kind1 s =
        s ++ [{ utxoId := x, lockedAt := now1, lockType := kind1,
                expiresAt := now1 + LOCK_TIMEOUT }] ∧
      countRecords x (lockUTXO now2 x kind2 (lockUTXO now1 x kind1 s)) = 1) ∧
    lockUTXO now2 x kind2 (lockUTXO now1 x kind1 s) = lockUTXO now1 x kind1 s ∧
    countRecords x (unlockUTXO x (unlockUTXO x s)) = 0 ∧
    unlockUTXO x (unlockUTXO x s) = unlockUTXO x s := by
  refine ⟨?_, lockUTXO_lockUTXO now1 now2 kind1 kind2 x s,
    countRecords_unlock x (unlockUTXO x s), unlockUTXO_idem x s⟩
  intro h0
  have hfind := find?_eq_none_of_countRecords_zero h0
  have h1 := lockUTXO_of_find?_none hfind now1 kind1
  refine ⟨h1, ?_⟩
  rw [lockUTXO_lockUTXO, h1, countRecords_append, h0]
  simp [countRecords]

/-- Witness for C7 at a concrete registry: locking `"a:0"` twice from the
empty registry leaves one record with the 15-minute expiry, and unlocking
twice leaves none. -/
theorem c7_lock_unlock_idempotent_witness :
    (countRecords "a:0" ([] : List LockedUTXO) = 0 →
      lockUTXO 5 "a:0" "creating_vault" [] =
        [] ++ [{ utxoId := "a:0", lockedAt := 5, lockType := "creating_vault",
                 expiresAt := 5 + LOCK_TIMEOUT }] ∧
      countRecords "a:0"
        (lockUTXO 9 "a:0" "creating_vault"
          (lockUTXO 5 "a:0" "creating_vault" [])) = 1) ∧
    lockUTXO 9 "a:0" "creating_vault" (lockUTXO 5 "a:0" "creating_vault" []) =
      lockUTXO 5 "a:0" "creating_vault" [] ∧
    countRecords "a:0" (unlockUTXO "a:0" (unlockUTXO "a:0" [])) = 0 ∧
    unlockUTXO "a:0" (unlockUTXO "a:0" ([] : List LockedUTXO)) =
      unlockUTXO "a:0" [] :=
  c7_lock_unlock_idempotent 5 9 "creating_vault" "creating_vault" "a:0" []

/-- Claim C8: `isLocked` on an id whose record has `expiresAt <= now` returns
`false` and evicts every record for that id; on an unexpired record it
returns `true` and leaves the registry unchanged; on an absent id it returns
`false` with the registry unchanged. -/
theorem c8_isLocked_expiry (now : Int) (x : String) (s : List LockedUTXO) :
    (∀ r, s.find? (fun u => u.utxoId == x) = some r →
      (r.expiresAt ≤ now →
        isLocked now x s = (false, unlockUTXO x s) ∧
        countRecords x (isLocked now x s).2 = 0) ∧
      (now < r.expiresAt → isLocked now x s = (true, s))) ∧
    (s.find? (fun u => u.utxoId == x) = none → isLocked now x s = (false, s)) := by
  constructor
  · intro r hr
    constructor
    · intro hexp
      have h : isLocked now x s = (false, unlockUTXO x s) := by
        simp [isLocked, hr, hexp]
      exact ⟨h, by rw [h]; exact countRecords_unlock x s⟩
    · intro hlt
      have hnot : ¬ r.expiresAt ≤ now := not_le.mpr hlt
      simp [isLocked, hr, hnot]
  · intro hnone
    simp [isLocked, hnone]

/-- Witness for C8: the round trip — lock `"a:0"` at time 0 (record expires
at 900000), then `isLocked` at time 900000 answers `false` and the registry
afterwards holds no record for that id; at time 899999 it answers `true`
and the registry is untouched. -/
theorem c8_isLocked_expiry_witness :
    (isLocked 900000 "a:0" (lockUTXO 0 "a:0" "creating_vault" []) =
        (false, unlockUTXO "a:0" (lockUTXO 0 "a:0" "creating_vault" [])) ∧
      countRecords "a:0"
        (isLocked 900000 "a:0" (lockUTXO 0 "a:0" "creating_vault" [])).2 = 0) ∧
    isLocked 899999 "a:0" (lockUTXO 0 "a:0" "creating_vault" []) =
      (true, lockUTXO 0 "a:0" "creating_vault" []) :=
  ⟨((c8_isLocked_expiry 900000 "a:0"
        (lockUTXO 0 "a:0" "creating_vault" [])).1
      { utxoId := "a:0", lockedAt := 0, lockType := "creating_vault",
        expiresAt := 900000 } (by decide)).1 (by decide),
   ((c8_isLocked_expiry 899999 "a:0"
        (lockUTXO 0 "a:0" "creating_vault" [])).1
      { utxoId := "a:0", lockedAt := 0, lockType := "creating_vault",
        expiresAt := 900000 } (by decide)).2 (by decide)⟩

/-! ## Distribution gating and amounts (claims C2, C3) -/

theorem buildDistributeSpell_isOk_iff (appRef : String) (vaultUTXO : UTXO)
    (vaultCharm : InheritanceContent) (currentBlock : Int) :
    (buildDistributeSpell appRef vaultUTXO vaultCharm currentBlock).isOk = true ↔
      vaultCharm.last_checkin_block + vaultCharm.trigger_delay_blocks
        < currentBlock := by
  unfold buildDistributeSpell
  by_cases h : currentBlock ≤
      vaultCharm.last_checkin_block + vaultCharm.trigger_delay_blocks
  · simp [h, Except.isOk, Except.toBool]
    try omega
  · simp [h, Except.isOk, Except.toBool]
    try omega

theorem buildDistributeSpell_outs (appRef : String) (vaultUTXO : UTXO)
    (vaultCharm : InheritanceContent) (currentBlock : Int)
    (h : vaultCharm.last_checkin_block + vaultCharm.trigger_delay_blocks
      < currentBlock) :
    buildDistributeSpell appRef vaultUTXO vaultCharm currentBlock =
      Except.ok
        { version := 8
          apps := appRef
          ins := [{ utxo_id := formatUtxoId vaultUTXO.txid vaultUTXO.vout,
                    charms := some vaultCharm }]
          outs := vaultCharm.beneficiaries.map (fun beneficiary =>
            { address := beneficiary.address
              sats := ((vaultUTXO.value - 2000) * beneficiary.percentage) / 100
              charms := none })
          private_inputs := none } := by
  unfold buildDistributeSpell
  have h2 : ¬ currentBlock ≤
      vaultCharm.last_checkin_block + vaultCharm.trigger_delay_blocks := by omega
  simp [h2]

theorem distributeRun_not_vaultLocked (env : OpEnv) (appRef : String)
    (vault : Vault) (vaultId : String) (vaultValue : Int)
    (wallet : Option (String × String)) (currentBlock : Int)
    (henv : env.currentBlock = Except.ok currentBlock)
    (hgt : ¬ currentBlock ≤ vault.unlockBlock) :
    (distributeRun env appRef (some vault) vaultId vaultValue wallet).1 ≠
      Except.error VaultErrorCode.vaultLocked := by
  unfold distributeRun
  rw [henv]
  simp only [if_neg hgt]
  intro h
  repeat' split at h
  all_goals simp_all

/-- Claim C2: with contract state `last_checkin_block = L` and
`trigger_delay_blocks = D` (for a vault record whose unlock block is
`L + D`, i.e. no earlier record-level check-in), a distribute attempt at
block `B` fails with the `VAULT_LOCKED` error exactly when `B ≤ L + D`,
and the distribution spell builds successfully exactly when `L + D < B`,
in which case none of its outputs carries a contract-state attachment. -/
theorem c2_distribution_gating (env : OpEnv) (appRef : String) (vault : Vault)
    (vaultId : String) (vaultValue : Int) (wallet : Option (String × String))
    (vaultUTXO : UTXO) (currentBlock : Int)
    (hfresh : vault.unlockBlock = vault.createdBlock + vault.triggerDelayBlocks)
    (henv : env.currentBlock = Except.ok currentBlock) :
    ((distributeRun env appRef (some vault) vaultId vaultValue wallet).1 =
        Except.error VaultErrorCode.vaultLocked ↔
      currentBlock ≤ (rebuildVaultCharm vault).last_checkin_block +
        (rebuildVaultCharm vault).trigger_delay_blocks) ∧
    ((buildDistributeSpell appRef vaultUTXO (rebuildVaultCharm vault)
        currentBlock).isOk = true ↔
      (rebuildVaultCharm vault).last_checkin_block +
        (rebuildVaultCharm vault).trigger_delay_blocks < currentBlock) ∧
    (∀ s, buildDistributeSpell appRef vaultUTXO (rebuildVaultCharm vault)
        currentBlock = Except.ok s → ∀ o ∈ s.outs, o.charms = none) := by
  have hLD : (rebuildVaultCharm vault).last_checkin_block +
      (rebuildVaultCharm vault).trigger_delay_blocks = vault.unlockBlock := by
    simp [rebuildVaultCharm, hfresh]
  refine ⟨?_, ?_, ?_⟩
  · rw [hLD]
    constructor
    · intro h
      by_contra hgt
      exact distributeRun_not_vaultLocked env appRef vault vaultId vaultValue
        wallet currentBlock henv hgt h
    · intro hle
      unfold distributeRun
      rw [henv]
      simp [hle]
  · exact buildDistributeSpell_isOk_iff appRef vaultUTXO
      (rebuildVaultCharm vault) currentBlock
  · intro s hs o ho
    have hdl : (rebuildVaultCharm vault).last_checkin_block +
        (rebuildVaultCharm vault).trigger_delay_blocks < currentBlock := by
      have := (buildDistributeSpell_isOk_iff appRef vaultUTXO
        (rebuildVaultCharm vault) currentBlock).mp (by rw [hs]; rfl)
      exact this
    rw [buildDistributeSpell_outs appRef vaultUTXO (rebuildVaultCharm vault)
      currentBlock hdl] at hs
    cases hs
    simp only [List.mem_map] at ho
    obtain ⟨b, _, rfl⟩ := ho
    rfl

/-- A concrete vault with `L = 100`, `D = 50` for the C2 witness. -/
def vaultC2 : Vault :=
  { id := "t:0", status := InheritanceStatus.Active, unlockBlock := 150,
    createdBlock := 100,
    beneficiaries := [{ address := "x", percentage := 60 },
                      { address := "y", percentage := 40 }],
    ownerPubkey := "pk", triggerDelayBlocks := 50 }

/-- A fully cooperative environment whose current block height is `B`. -/
def opEnvAt (B : Int) : OpEnv :=
  { currentBlock := Except.ok B, halfHourFee := Except.ok 2,
    prevTxHex := Except.ok "prevhex",
    proverResponse := Except.ok ("c0", "s0"),
    broadcast := Except.ok "txid",
    walletSign := fun tx => Except.ok ("wallet:" ++ tx) }

/-- A concrete 100000-sat vault UTXO. -/
def utxo100000 : UTXO := { txid := "t", vout := 0, value := 100000, scriptPubKey := "" }

/-- Witness for C2: with `L = 100`, `D = 50`, distributing at block 150
fails with `VAULT_LOCKED` and the distribution spell builds at block 151. -/
theorem c2_distribution_gating_witness :
    (distributeRun (opEnvAt 150) "app" (some vaultC2) "t:0" 100000
        (some ("pk", "addr"))).1 = Except.error VaultErrorCode.vaultLocked ∧
    (buildDistributeSpell "app" utxo100000 (rebuildVaultCharm vaultC2)
        151).isOk = true :=
  ⟨((c2_distribution_gating (opEnvAt 150) "app" vaultC2 "t:0" 100000
      (some ("pk", "addr")) utxo100000 150 (by decide) (by rfl)).1).mpr
      (by decide),
   ((c2_distribution_gating (opEnvAt 151) "app" vaultC2 "t:0" 100000
      (some ("pk", "addr")) utxo100000 151 (by decide) (by rfl)).2.1).mpr
      (by decide)⟩

/-- Counterexample to claim C3 as stated: with a vault UTXO of only 1000
sats (below the 2000-sat fee reserve) and beneficiaries 60%/40%,
`buildDistributeSpell` produces NEGATIVE outputs (-600 and -400 sats), so
"every output non-negative" does not hold for every vault UTXO value. -/
theorem c3_distribution_amounts_counterexample :
    (buildDistributeSpell "app"
        { txid := "t", vout := 0, value := 1000, scriptPubKey := "" }
        { owner_pubkey := "pk", last_checkin_block := 0,
          trigger_delay_blocks := 0,
          beneficiaries := [{ address := "x", percentage := 60 },
                            { address := "y", percentage := 40 }],
          status := InheritanceStatus.Active } 1).map
      (fun s => s.outs.map SpellOutput.sats) = Except.ok [-600, -400] := by
  rfl

theorem hundred_mul_ediv_hundred_le (a : Int) : 100 * (a / 100) ≤ a := by
  omega

theorem sum_scaled_percent_le (T : Int) (l : List Beneficiary) :
    100 * ((l.map (fun b => (T * b.percentage) / 100)).sum) ≤
      T * ((l.map Beneficiary.percentage).sum) := by
  induction l with
  | nil => simp
  | cons b t ih =>
      simp only [List.map_cons, List.sum_cons, mul_add]
      have h := hundred_mul_ediv_hundred_le (T * b.percentage)
      omega

/-- Claim C3 (amended): when the vault UTXO holds at least the 2000-sat fee
reserve and the (non-negative) percentages sum to 100, the distribution
spell has exactly one output per beneficiary, the output for percentage `p`
is `floor((V - 2000) * p / 100)` sats, the outputs sum to at most
`V - 2000`, and every output is non-negative and at most the input value. -/
theorem c3_distribution_amounts (appRef : String) (u : UTXO)
    (charm : InheritanceContent) (currentBlock : Int)
    (hsum : (charm.beneficiaries.map Beneficiary.percentage).sum = 100)
    (hnn : ∀ b ∈ charm.beneficiaries, 0 ≤ b.percentage)
    (hval : 2000 ≤ u.value)
    (hdl : charm.last_checkin_block + charm.trigger_delay_blocks
      < currentBlock) :
    ∃ s, buildDistributeSpell appRef u charm currentBlock = Except.ok s ∧
      s.outs = charm.beneficiaries.map (fun b =>
        { address := b.address
          sats := ((u.value - 2000) * b.percentage) / 100
          charms := none }) ∧
      (s.outs.map SpellOutput.sats).sum ≤ u.value - 2000 ∧
      ∀ o ∈ s.outs, 0 ≤ o.sats ∧ o.sats ≤ u.value := by
  refine ⟨_, buildDistributeSpell_outs appRef u charm currentBlock hdl,
    rfl, ?_, ?_⟩
  · have hb := sum_scaled_percent_le (u.value - 2000) charm.beneficiaries
    rw [hsum] at hb
    simp only [List.map_map]
    have hcomp :
        (SpellOutput.sats ∘ fun b : Beneficiary =>
          ({ address := b.address
             sats := ((u.value - 2000) * b.percentage) / 100
             charms := none } : SpellOutput)) =
        fun b : Beneficiary => ((u.value - 2000) * b.percentage) / 100 := rfl
    rw [hcomp]
    omega
  · intro o ho
    simp only [List.mem_map] at ho
    obtain ⟨b, hb, rfl⟩ := ho
    have hT : (0 : Int) ≤ u.value - 2000 := by omega
    have hp : 0 ≤ b.percentage := hnn b hb
    constructor
    · exact Int.ediv_nonneg (mul_nonneg hT hp) (by norm_num)
    · have hp100 : b.percentage ≤ 100 := by
        have hmem : b.percentage ∈ charm.beneficiaries.map Beneficiary.percentage :=
          List.mem_map_of_mem Beneficiary.percentage hb
        have := List.single_le_sum
          (fun x hx => by
            simp only [List.mem_map] at hx
            obtain ⟨c, hc, rfl⟩ := hx
            exact hnn c hc)
          b.percentage hmem
        omega
      have h1 : (u.value - 2000) * b.percentage ≤ (u.value - 2000) * 100 :=
        mul_le_mul_of_nonneg_left hp100 hT
      have h2 : ((u.value - 2000) * b.percentage) / 100 ≤
          ((u.value - 2000) * 100) / 100 :=
        Int.ediv_le_ediv (by norm_num) h1
      have h3 : ((u.value - 2000) * 100) / 100 = u.value - 2000 :=
        Int.mul_ediv_cancel _ (by norm_num)
      simp only [Beneficiary.percentage] at h2 h3 ⊢
      omega

/-- The spec's worked example for the C3 witness: `L = 100`, `D = 50`,
beneficiaries 60%/40%. -/
def charmC3 : InheritanceContent :=
  { owner_pubkey := "pk", last_checkin_block := 100, trigger_delay_blocks := 50,
    beneficiaries := [{ address := "x", percentage := 60 },
                      { address := "y", percentage := 40 }],
    status := InheritanceStatus.Active }

/-- Witness for (amended) C3 at the spec's example: 100000-sat vault,
beneficiaries 60%/40%, distribution at block 151. -/
theorem c3_distribution_amounts_witness :
    ∃ s, buildDistributeSpell "app" utxo100000 charmC3 151 = Except.ok s ∧
      s.outs = charmC3.beneficiaries.map (fun b =>
        { address := b.address
          sats := ((utxo100000.value - 2000) * b.percentage) / 100
          charms := none }) ∧
      (s.outs.map SpellOutput.sats).sum ≤ utxo100000.value - 2000 ∧
      ∀ o ∈ s.outs, 0 ≤ o.sats ∧ o.sats ≤ utxo100000.value :=
  c3_distribution_amounts "app" utxo100000 charmC3 151 (by decide)
    (by decide) (by decide) (by decide)

theorem foldl_add_percent (l : List Beneficiary) (a : Int) :
    l.foldl (fun sum b => sum + b.percentage) a =
      a + (l.map Beneficiary.percentage).sum := by
  induction l generalizing a with
  | nil => simp
  | cons b t ih => simp [ih, add_assoc]

/-- Claim C4: `validateBeneficiaries` accepts exactly the lists whose
percentages sum to 100, and both beneficiary-writing operations
(create vault, update beneficiaries) reject an invalid list with
`VALIDATION_ERROR` immediately: no lock is taken, no network call or any
other event happens. -/
theorem c4_beneficiary_validation (bens : List Beneficiary) :
    (validateBeneficiaries bens = true ↔
      (bens.map Beneficiary.percentage).sum = 100) ∧
    (validateBeneficiaries bens = false →
      (∀ (env : CreateEnv) (appRef : String) (amount triggerDelayBlocks : Int)
          (wallet : Option (String × String)) (utxos : List UTXO)
          (failedUTXOs : String → Option FailureRecord) (now : Int)
          (locks0 : List LockedUTXO),
        createVaultRun env appRef amount bens triggerDelayBlocks wallet utxos
            failedUTXOs now locks0 =
          (Except.error VaultErrorCode.validationError, locks0, [])) ∧
      (∀ (env : OpEnv) (appRef : String) (vaultLoaded : Option Vault)
          (vaultId : String) (vaultValue : Int)
          (wallet : Option (String × String)),
        updateBeneficiariesRun env appRef bens vaultLoaded vaultId vaultValue
            wallet = (Except.error VaultErrorCode.validationError, []))) := by
  constructor
  · unfold validateBeneficiaries
    rw [foldl_add_percent]
    simp [beq_iff_eq]
  · intro h
    constructor
    · intro env appRef amount triggerDelayBlocks wallet utxos failedUTXOs now locks0
      simp [createVaultRun, h]
    · intro env appRef vaultLoaded vaultId vaultValue wallet
      simp [updateBeneficiariesRun, h]

/-- A fully cooperative create-vault environment whose direct broadcast
succeeds. -/
def createEnvDirect : CreateEnv :=
  { currentBlock := Except.ok 100, halfHourFee := Except.ok 2,
    prevTxHex := Except.ok "prevhex",
    proverResponse := Except.ok ("c0", "s0"),
    directBroadcast := Except.ok "txid1",
    convertPsbt := fun _ _ _ => Except.ok "psbt",
    walletSign := fun tx => Except.ok ("wallet:" ++ tx),
    extractPsbt := fun _ => Except.ok "signedcommit",
    fallbackBroadcast := Except.ok "txid2" }

/-- The same environment with the direct broadcast failing, forcing the
wallet-signing fallback path. -/
def createEnvFallback : CreateEnv :=
  { createEnvDirect with directBroadcast := Except.error "bad-txns-nonstandard" }

/-- Witness for C4: `[60, 40]` validates (sums to 100) while `[60, 60]` is
rejected by both operations with `VALIDATION_ERROR` before any event. -/
theorem c4_beneficiary_validation_witness :
    (validateBeneficiaries [{ address := "x", percentage := 60 },
                            { address := "y", percentage := 40 }] = true ↔
      (([{ address := "x", percentage := 60 },
         { address := "y", percentage := 40 }] : List Beneficiary).map
          Beneficiary.percentage).sum = 100) ∧
    createVaultRun createEnvDirect "app" 5000
        [{ address := "x", percentage := 60 },
         { address := "y", percentage := 60 }] 10 (some ("pk", "addr")) []
        (fun _ => none) 0 [] =
      (Except.error VaultErrorCode.validationError, [], []) ∧
    updateBeneficiariesRun (opEnvAt 100) "app"
        [{ address := "x", percentage := 60 },
         { address := "y", percentage := 60 }] none "t:0" 5000 none =
      (Except.error VaultErrorCode.validationError, []) :=
  ⟨(c4_beneficiary_validation
      [{ address := "x", percentage := 60 },
       { address := "y", percentage := 40 }]).1,
   ((c4_beneficiary_validation
      [{ address := "x", percentage := 60 },
       { address := "y", percentage := 60 }]).2 (by decide)).1
      createEnvDirect "app" 5000 10 (some ("pk", "addr")) [] (fun _ => none) 0 [],
   ((c4_beneficiary_validation
      [{ address := "x", percentage := 60 },
       { address := "y", percentage := 60 }]).2 (by decide)).2
      (opEnvAt 100) "app" none "t:0" 5000 none⟩

theorem selectFundingUTXO_fst (now requiredAmount : Int)
    (locks : List LockedUTXO) (failedUTXOs : String → Option FailureRecord)
    (utxos : List UTXO) :
    (selectFundingUTXO now requiredAmount locks failedUTXOs utxos).1 =
      ((utxos.filter (utxoEligible now requiredAmount
        (clearExpiredLocks now locks) failedUTXOs)).insertionSort
          valueLE).head? := rfl

/-- Claim C5: the funding selector returns the single smallest-value
eligible UTXO (value at least the required amount, not locked, not inside
the failure cooldown), returns `none` exactly when no candidate is
eligible, and in `createVault` a `none` selection surfaces as
`INSUFFICIENT_FUNDS` with the registry only swept of expired locks. -/
theorem c5_funding_selector (now requiredAmount : Int)
    (locks : List LockedUTXO) (failedUTXOs : String → Option FailureRecord)
    (utxos : List UTXO) :
    (∀ u, (selectFundingUTXO now requiredAmount locks failedUTXOs utxos).1 =
        some u →
      u ∈ utxos ∧
      utxoEligible now requiredAmount (clearExpiredLocks now locks)
        failedUTXOs u = true ∧
      ∀ v ∈ utxos,
        utxoEligible now requiredAmount (clearExpiredLocks now locks)
          failedUTXOs v = true → u.value ≤ v.value) ∧
    ((selectFundingUTXO now requiredAmount locks failedUTXOs utxos).1 =
        none ↔
      ∀ u ∈ utxos,
        utxoEligible now requiredAmount (clearExpiredLocks now locks)
          failedUTXOs u = false) ∧
    (∀ (env : CreateEnv) (appRef : String) (bens : List Beneficiary)
        (triggerDelayBlocks : Int) (pk addr : String),
      validateBeneficiaries bens = true →
      (selectFundingUTXO now requiredAmount locks failedUTXOs utxos).1 =
        none →
      createVaultRun env appRef requiredAmount bens triggerDelayBlocks
          (some (pk, addr)) utxos failedUTXOs now locks =
        (Except.error VaultErrorCode.insufficientFunds,
          clearExpiredLocks now locks, [])) := by
  have hperm := List.perm_insertionSort valueLE
    (utxos.filter (utxoEligible now requiredAmount
      (clearExpiredLocks now locks) failedUTXOs))
  have hsorted := List.sorted_insertionSort valueLE
    (utxos.filter (utxoEligible now requiredAmount
      (clearExpiredLocks now locks) failedUTXOs))
  refine ⟨?_, ?_, ?_⟩
  · intro u hu
    rw [selectFundingUTXO_fst] at hu
    match hs : (utxos.filter (utxoEligible now requiredAmount
        (clearExpiredLocks now locks) failedUTXOs)).insertionSort valueLE with
    | [] => rw [hs] at hu; simp at hu
    | a :: t =>
      rw [hs] at hu
      simp only [List.head?_cons, Option.some.injEq] at hu
      subst hu
      rw [hs] at hperm hsorted
      have humem : a ∈ utxos.filter (utxoEligible now requiredAmount
          (clearExpiredLocks now locks) failedUTXOs) :=
        hperm.mem_iff.mp (List.mem_cons_self a t)
      have hu2 := List.mem_filter.mp humem
      refine ⟨hu2.1, hu2.2, ?_⟩
      intro v hv hvelig
      have hvmem : v ∈ a :: t :=
        hperm.mem_iff.mpr (List.mem_filter.mpr ⟨hv, hvelig⟩)
      rcases List.mem_cons.mp hvmem with heq | hvt
      · rw [heq]
      · exact (List.sorted_cons.mp hsorted).1 v hvt
  · rw [selectFundingUTXO_fst]
    rw [List.head?_eq_none_iff]
    constructor
    · intro hnil u hu
      have hfil : utxos.filter (utxoEligible now requiredAmount
          (clearExpiredLocks now locks) failedUTXOs) = [] := by
        have := hperm.symm
        rw [hnil] at this
        exact this.eq_nil
      rw [List.filter_eq_nil_iff] at hfil
      have := hfil u hu
      simpa using this
    · intro hall
      have hfil : utxos.filter (utxoEligible now requiredAmount
          (clearExpiredLocks now locks) failedUTXOs) = [] := by
        rw [List.filter_eq_nil_iff]
        intro u hu
        simp [hall u hu]
      rw [hfil]
      rfl
  · intro env appRef bens triggerDelayBlocks pk addr hval hnone
    have hsel : selectFundingUTXO now requiredAmount locks failedUTXOs utxos =
        (none, clearExpiredLocks now locks) := by
      have h2 : (selectFundingUTXO now requiredAmount locks failedUTXOs
          utxos).2 = clearExpiredLocks now locks := rfl
      rw [Prod.ext_iff]
      exact ⟨hnone, h2⟩
    unfold createVaultRun
    rw [hval, hsel]
    simp

/-- The spec's selector example: A holds 5000 sats, B holds 10000 sats. -/
def utxoA : UTXO := { txid := "A", vout := 0, value := 5000, scriptPubKey := "" }

/-- See `utxoA`. -/
def utxoB : UTXO := { txid := "B", vout := 0, value := 10000, scriptPubKey := "" }

/-- An unexpired lock on A for the C5 witness. -/
def lockA : LockedUTXO :=
  { utxoId := "A:0", lockedAt := 0, lockType := "creating_vault",
    expiresAt := 900000 }

/-- Witness for C5: required amount 4000 over `[A(5000), B(10000)]` — with A
locked the selector returns B (and B is minimal among eligible candidates);
with both eligible it returns A. -/
theorem c5_funding_selector_witness :
    (selectFundingUTXO 0 4000 [lockA] (fun _ => none) [utxoA, utxoB]).1 =
      some utxoB ∧
    (utxoB ∈ [utxoA, utxoB] ∧
      utxoEligible 0 4000 (clearExpiredLocks 0 [lockA]) (fun _ => none)
        utxoB = true ∧
      ∀ v ∈ [utxoA, utxoB],
        utxoEligible 0 4000 (clearExpiredLocks 0 [lockA]) (fun _ => none)
          v = true → utxoB.value ≤ v.value) ∧
    (selectFundingUTXO 0 4000 [] (fun _ => none) [utxoA, utxoB]).1 =
      some utxoA :=
  ⟨by decide,
   (c5_funding_selector 0 4000 [lockA] (fun _ => none) [utxoA, utxoB]).1
     utxoB (by decide),
   by decide⟩

theorem createVaultInner_no_lockEv (env : CreateEnv) (appRef : String)
    (amount : Int) (fundingUTXO : UTXO) (ownerPubkey : String)
    (beneficiaries : List Beneficiary) (triggerDelayBlocks : Int)
    (changeAddress : String) (id : String) :
    Event.lockEv id ∉ (createVaultInner env appRef amount fundingUTXO
      ownerPubkey beneficiaries triggerDelayBlocks changeAddress).2 := by
  unfold createVaultInner
  repeat' split
  all_goals simp

theorem finishCreateVault_spec (utxoId : String) (locks2 : List LockedUTXO)
    (inner : Except String (String × Int) × List Event)
    (hno : ∀ id, Event.lockEv id ∉ inner.2)
    (res : Except VaultErrorCode String) (locksF : List LockedUTXO)
    (trace : List Event)
    (heq : finishCreateVault utxoId locks2 inner = (res, locksF, trace)) :
    (∀ id, Event.lockEv id ∈ trace → countRecords id locksF = 0) ∧
    (∀ txid, res = Except.ok txid →
      ∃ pre id, trace = Event.lockEv id ::
        (pre ++ [Event.unlockEv id, Event.persistEv (txid ++ ":0")])) := by
  unfold finishCreateVault at heq
  split at heq
  · simp only [Prod.mk.injEq] at heq
    obtain ⟨h1, h2, h3⟩ := heq
    subst h1
    subst h2
    subst h3
    constructor
    · intro id hid
      rcases List.mem_cons.mp hid with h | h
      · injection h with h'
        rw [h']
        exact countRecords_unlock _ _
      · rcases List.mem_append.mp h with h2 | h2
        · exact absurd h2 (hno id)
        · simp at h2
    · intro txid h
      injection h with h'
      subst h'
      exact ⟨_, _, rfl⟩
  · simp only [Prod.mk.injEq] at heq
    obtain ⟨h1, h2, h3⟩ := heq
    subst h1
    subst h2
    subst h3
    constructor
    · intro id hid
      rcases List.mem_cons.mp hid with h | h
      · injection h with h'
        rw [h']
        exact countRecords_unlock _ _
      · rcases List.mem_append.mp h with h2 | h2
        · exact absurd h2 (hno id)
        · simp at h2
    · intro txid h
      exact Except.noConfusion h

/-- Claim C6: every lock acquired by the create-vault sequence is released
on every completion path — the final registry holds no record for any id a
`lockEv` was emitted for — and on success the unlock event strictly
precedes the persistence of the vault record (`spellTxid:0`), which is the
last event of the trace. -/
theorem c6_create_vault_lock_release (env : CreateEnv) (appRef : String)
    (amount : Int) (bens : List Beneficiary) (triggerDelayBlocks : Int)
    (wallet : Option (String × String)) (utxos : List UTXO)
    (failedUTXOs : String → Option FailureRecord) (now : Int)
    (locks0 : List LockedUTXO) (res : Except VaultErrorCode String)
    (locksF : List LockedUTXO) (trace : List Event)
    (heq : createVaultRun env appRef amount bens triggerDelayBlocks wallet
      utxos failedUTXOs now locks0 = (res, locksF, trace)) :
    (∀ id, Event.lockEv id ∈ trace → countRecords id locksF = 0) ∧
    (∀ txid, res = Except.ok txid →
      ∃ pre id, trace = Event.lockEv id ::
        (pre ++ [Event.unlockEv id, Event.persistEv (txid ++ ":0")])) := by
  unfold createVaultRun at heq
  repeat' split at heq
  case _ =>
    simp only [Prod.mk.injEq] at heq
    obtain ⟨h1, h2, h3⟩ := heq
    subst h1; subst h2; subst h3
    exact ⟨by simp, fun txid h => Except.noConfusion h⟩
  case _ =>
    simp only [Prod.mk.injEq] at heq
    obtain ⟨h1, h2, h3⟩ := heq
    subst h1; subst h2; subst h3
    exact ⟨by simp, fun txid h => Except.noConfusion h⟩
  case _ =>
    simp only [Prod.mk.injEq] at heq
    obtain ⟨h1, h2, h3⟩ := heq
    subst h1; subst h2; subst h3
    exact ⟨by simp, fun txid h => Except.noConfusion h⟩
  case _ =>
    simp only [Prod.mk.injEq] at heq
    obtain ⟨h1, h2, h3⟩ := heq
    subst h1; subst h2; subst h3
    exact ⟨by simp, fun txid h => Except.noConfusion h⟩
  case _ =>
    exact finishCreateVault_spec _ _ _
      (fun id => createVaultInner_no_lockEv _ _ _ _ _ _ _ _ id)
      res locksF trace heq

/-- A valid 60/40 beneficiary list for witnesses. -/
def bens6040 : List Beneficiary :=
  [{ address := "x", percentage := 60 }, { address := "y", percentage := 40 }]

/-- Witness for C6: a concrete successful create-vault run locks `A:0`,
ends with no record for it, and its trace unlocks before persisting. -/
theorem c6_create_vault_lock_release_witness :
    countRecords "A:0" (createVaultRun createEnvDirect "app" 4000 bens6040 10
      (some ("pk", "addr")) [utxoA, utxoB] (fun _ => none) 0 []).2.1 = 0 ∧
    ∃ pre id, (createVaultRun createEnvDirect "app" 4000 bens6040 10
        (some ("pk", "addr")) [utxoA, utxoB] (fun _ => none) 0 []).2.2 =
      Event.lockEv id ::
        (pre ++ [Event.unlockEv id, Event.persistEv ("txid1" ++ ":0")]) :=
  ⟨(c6_create_vault_lock_release createEnvDirect "app" 4000 bens6040 10
      (some ("pk", "addr")) [utxoA, utxoB] (fun _ => none) 0 [] _ _ _ rfl).1
      "A:0" (by decide),
   (c6_create_vault_lock_release createEnvDirect "app" 4000 bens6040 10
      (some ("pk", "addr")) [utxoA, utxoB] (fun _ => none) 0 [] _ _ _ rfl).2
      "txid1" (by rfl)⟩

theorem encodeWitnessStack_single (e : List Nat) :
    encodeWitnessStack [e] = manualTaprootWitness e := by
  simp [encodeWitnessStack, manualTaprootWitness]

theorem encodeWitnessStack_pair (e f : List Nat) :
    encodeWitnessStack [e, f] = manualSegwitWitness e f := by
  simp [encodeWitnessStack, manualSegwitWitness]

theorem finalizeInputFallback_of_standardOk {i : PsbtInput}
    (h : standardOk i = true) :
    finalizeInputFallback i = Except.ok (finalizeStandard i) := by
  unfold standardOk at h
  by_cases h1 : alreadyFinalized i
  · simp [finalizeInputFallback, finalizeStandard, h1]
  · have h2 : i.canStandardFinalize = true := by
      rcases Bool.or_eq_true_iff.mp h with h' | h'
      · exact absurd h' h1
      · exact h'
    simp [finalizeInputFallback, finalizeStandard, h1, h2]

theorem finalizeAllFallback_of_all_standard (inputs : List PsbtInput)
    (h : ∀ i ∈ inputs, standardOk i = true) :
    finalizeAllFallback inputs = Except.ok (inputs.map finalizeStandard) := by
  induction inputs with
  | nil => rfl
  | cons a t ih =>
      unfold finalizeAllFallback
      rw [finalizeInputFallback_of_standardOk (h a (List.mem_cons_self a t)),
        ih (fun i hi => h i (List.mem_cons_of_mem a hi))]
      rfl

theorem extractTxFromPsbt_eq_fallback (inputs : List PsbtInput) :
    extractTxFromPsbt inputs = finalizeAllFallback inputs := by
  unfold extractTxFromPsbt
  by_cases h : inputs.all standardOk
  · rw [if_pos h, finalizeAllFallback_of_all_standard inputs
      (fun i hi => List.all_eq_true.mp h i hi)]
  · rw [if_neg h]

theorem finalizeAllFallback_ok (inputs : List PsbtInput) (outs : List PsbtInput)
    (h : finalizeAllFallback inputs = Except.ok outs) :
    outs.length = inputs.length ∧
    ∀ p ∈ inputs.zip outs, finalizeInputFallback p.1 = Except.ok p.2 := by
  induction inputs generalizing outs with
  | nil =>
      unfold finalizeAllFallback at h
      injection h with h'
      subst h'
      simp
  | cons a t ih =>
      unfold finalizeAllFallback at h
      cases hfa : finalizeInputFallback a with
      | error e => rw [hfa] at h; exact Except.noConfusion h
      | ok b =>
          rw [hfa] at h
          cases hft : finalizeAllFallback t with
          | error e => rw [hft] at h; exact Except.noConfusion h
          | ok bs =>
              rw [hft] at h
              injection h with h'
              subst h'
              obtain ⟨hlen, hzip⟩ := ih bs hft
              refine ⟨by simp [hlen], ?_⟩
              intro p hp
              rw [List.zip_cons_cons] at hp
              rcases List.mem_cons.mp hp with h' | h'
              · subst h'
                exact hfa
              · exact hzip p h'

theorem finalizeAllFallback_isOk (inputs : List PsbtInput) :
    (finalizeAllFallback inputs).isOk = true ↔
      ∀ i ∈ inputs, (finalizeInputFallback i).isOk = true := by
  induction inputs with
  | nil =>
      constructor
      · intro _ i hi
        exact absurd hi (List.not_mem_nil i)
      · intro _
        rfl
  | cons a t ih =>
      unfold finalizeAllFallback
      cases hfa : finalizeInputFallback a with
      | error e =>
          constructor
          · intro h
            simp [Except.isOk, Except.toBool] at h
          · intro h
            have := h a (List.mem_cons_self a t)
            rw [hfa] at this
            simp [Except.isOk, Except.toBool] at this
      | ok b =>
          cases hft : finalizeAllFallback t with
          | error e =>
              constructor
              · intro h
                simp [Except.isOk, Except.toBool] at h
              · intro h
                have := ih.mpr (fun i hi => h i (List.mem_cons_of_mem a hi))
                rw [hft] at this
                simp [Except.isOk, Except.toBool] at this
          | ok bs =>
              constructor
              · intro _ i hi
                rcases List.mem_cons.mp hi with h' | h'
                · subst h'
                  rw [hfa]
                  rfl
                · have := ih.mp (by rw [hft]; rfl)
                  exact this i h'
              · intro _
                rfl

theorem finalizeInputFallback_isOk_iff (i : PsbtInput) :
    (finalizeInputFallback i).isOk = true ↔
      (standardOk i = true ∨ i.tapKeySig.isSome = true ∨ i.sigPairs ≠ []) := by
  by_cases h : standardOk i = true
  · rw [finalizeInputFallback_of_standardOk h]
    simp [Except.isOk, Except.toBool, h]
  · have h1 : alreadyFinalized i = false := by
      cases hb : alreadyFinalized i
      · rfl
      · exact absurd (by simp [standardOk, hb]) h
    have h2 : i.canStandardFinalize = false := by
      cases hb : i.canStandardFinalize
      · rfl
      · exact absurd (by simp [standardOk, hb]) h
    unfold finalizeInputFallback
    rw [h1, h2]
    simp only [Bool.false_eq_true, if_false]
    cases hts : i.tapKeySig with
    | some sig => simp [Except.isOk, Except.toBool, h]
    | none =>
        cases hsp : i.sigPairs with
        | nil => simp [Except.isOk, Except.toBool, h, hts]
        | cons q qs => simp [Except.isOk, Except.toBool, h, hts, hsp]

theorem standardOk_eq_false {i : PsbtInput} (h : standardOk i = false) :
    alreadyFinalized i = false ∧ i.canStandardFinalize = false := by
  unfold standardOk at h
  constructor
  · cases hb : alreadyFinalized i
    · rfl
    · rw [hb] at h
      simp at h
  · cases hb : i.canStandardFinalize
    · rfl
    · rw [hb] at h
      simp at h

/-- Claim C9: extracting from a signed PSBT attempts standard finalization
first for every input (finalized inputs kept, standard-recognized inputs
get the standard witness); an input failing standard finalization with a
Taproot key signature gets a single-element witness stack holding just that
signature; one with a detached signature+pubkey pair gets a two-element
stack of signature then pubkey; and extraction fails (the
`UnfinalizableInput` error) exactly when some input has none of these. -/
theorem c9_extract_finalization (inputs : List PsbtInput) :
    (∀ outs, extractTxFromPsbt inputs = Except.ok outs →
      outs.length = inputs.length ∧
      ∀ p ∈ inputs.zip outs,
        (alreadyFinalized p.1 = true → p.2 = p.1) ∧
        (alreadyFinalized p.1 = false → p.1.canStandardFinalize = true →
          p.2 = { p.1 with finalScriptWitness := some p.1.standardWitness }) ∧
        (standardOk p.1 = false → ∀ sig, p.1.tapKeySig = some sig →
          p.2 = { p.1 with
            finalScriptWitness := some (encodeWitnessStack [sig]) }) ∧
        (standardOk p.1 = false → p.1.tapKeySig = none →
          ∀ q qs, p.1.sigPairs = q :: qs →
            p.2 = { p.1 with
              finalScriptWitness :=
                some (encodeWitnessStack [q.signature, q.pubkey]) })) ∧
    ((extractTxFromPsbt inputs).isOk = false ↔
      ∃ i ∈ inputs, standardOk i = false ∧ i.tapKeySig = none ∧
        i.sigPairs = []) := by
  constructor
  · intro outs h
    rw [extractTxFromPsbt_eq_fallback] at h
    obtain ⟨hlen, hzip⟩ := finalizeAllFallback_ok inputs outs h
    refine ⟨hlen, ?_⟩
    intro p hp
    have hface := hzip p hp
    refine ⟨?_, ?_, ?_, ?_⟩
    · intro hAF
      have he : finalizeInputFallback p.1 = Except.ok p.1 := by
        simp [finalizeInputFallback, hAF]
      rw [he] at hface
      injection hface with h'
      exact h'.symm
    · intro hAF hcan
      have he : finalizeInputFallback p.1 =
          Except.ok { p.1 with finalScriptWitness := some p.1.standardWitness } := by
        simp [finalizeInputFallback, hAF, hcan]
      rw [he] at hface
      injection hface with h'
      exact h'.symm
    · intro hso sig htap
      obtain ⟨h1, h2⟩ := standardOk_eq_false hso
      have he : finalizeInputFallback p.1 =
          Except.ok { p.1 with
            finalScriptWitness := some (manualTaprootWitness sig) } := by
        simp [finalizeInputFallback, h1, h2, htap]
      rw [he] at hface
      injection hface with h'
      rw [encodeWitnessStack_single]
      exact h'.symm
    · intro hso htap q qs hsp
      obtain ⟨h1, h2⟩ := standardOk_eq_false hso
      have he : finalizeInputFallback p.1 =
          Except.ok { p.1 with
            finalScriptWitness :=
              some (manualSegwitWitness q.signature q.pubkey) } := by
        simp [finalizeInputFallback, h1, h2, htap, hsp]
      rw [he] at hface
      injection hface with h'
      rw [encodeWitnessStack_pair]
      exact h'.symm
  · rw [extractTxFromPsbt_eq_fallback]
    constructor
    · intro h
      by_contra hno
      push_neg at hno
      have hall : ∀ i ∈ inputs, (finalizeInputFallback i).isOk = true := by
        intro i hi
        rw [finalizeInputFallback_isOk_iff]
        by_cases hso : standardOk i = true
        · exact Or.inl hso
        · have hso2 : standardOk i = false := Bool.eq_false_iff.mpr hso
          cases hts : i.tapKeySig with
          | some sig => exact Or.inr (Or.inl rfl)
          | none => exact Or.inr (Or.inr (hno i hi hso2 hts))
      have hok := (finalizeAllFallback_isOk inputs).mpr hall
      rw [Bool.eq_false_iff] at h
      exact h hok
    · rintro ⟨i, hi, hso, hts, hsp⟩
      cases hok : (finalizeAllFallback inputs).isOk with
      | false => rfl
      | true =>
          have h' := (finalizeAllFallback_isOk inputs).mp hok i hi
          rw [finalizeInputFallback_isOk_iff] at h'
          rcases h' with h' | h' | h'
          · rw [hso] at h'
            exact Bool.noConfusion h'
          · rw [hts] at h'
            simp at h'
          · exact (h' hsp).elim

/-- A Taproot key-path input that standard finalization does not handle. -/
def psbtTaproot : PsbtInput :=
  { finalScriptWitness := none, finalScriptSig := none,
    tapKeySig := some [1, 2], sigPairs := [], canStandardFinalize := false,
    standardWitness := [] }

/-- An input with no witness data at all. -/
def psbtNoSig : PsbtInput :=
  { finalScriptWitness := none, finalScriptSig := none, tapKeySig := none,
    sigPairs := [], canStandardFinalize := false, standardWitness := [] }

/-- Witness for C9: one Taproot key-path input extracts with the manual
single-element witness stack, and a signatureless input makes extraction
fail. -/
theorem c9_extract_finalization_witness :
    (([{ psbtTaproot with
          finalScriptWitness := some (manualTaprootWitness [1, 2]) }] :
        List PsbtInput).length = ([psbtTaproot] : List PsbtInput).length ∧
      ∀ p ∈ ([psbtTaproot].zip
          [{ psbtTaproot with
             finalScriptWitness := some (manualTaprootWitness [1, 2]) }]),
        (alreadyFinalized p.1 = true → p.2 = p.1) ∧
        (alreadyFinalized p.1 = false → p.1.canStandardFinalize = true →
          p.2 = { p.1 with finalScriptWitness := some p.1.standardWitness }) ∧
        (standardOk p.1 = false → ∀ sig, p.1.tapKeySig = some sig →
          p.2 = { p.1 with
            finalScriptWitness := some (encodeWitnessStack [sig]) }) ∧
        (standardOk p.1 = false → p.1.tapKeySig = none →
          ∀ q qs, p.1.sigPairs = q :: qs →
            p.2 = { p.1 with
              finalScriptWitness :=
                some (encodeWitnessStack [q.signature, q.pubkey]) })) ∧
    ((extractTxFromPsbt [psbtNoSig]).isOk = false ↔
      ∃ i ∈ [psbtNoSig], standardOk i = false ∧ i.tapKeySig = none ∧
        i.sigPairs = []) :=
  ⟨(c9_extract_finalization [psbtTaproot]).1
    [{ psbtTaproot with
       finalScriptWitness := some (manualTaprootWitness [1, 2]) }] (by rfl),
   (c9_extract_finalization [psbtNoSig]).2⟩

theorem applyVaultOp_createdBlock (v : Vault) (op : VaultOp) :
    (applyVaultOp v op).createdBlock = v.createdBlock := by
  cases op <;> rfl

theorem foldl_applyVaultOp_createdBlock (ops : List VaultOp) (v : Vault) :
    (ops.foldl applyVaultOp v).createdBlock = v.createdBlock := by
  induction ops generalizing v with
  | nil => rfl
  | cons op t ih =>
      rw [List.foldl_cons, ih (applyVaultOp v op), applyVaultOp_createdBlock]

theorem checkinRun_proveEv (env : OpEnv) (appRef : String) (vault : Vault)
    (vaultId : String) (vaultValue : Int) (wallet : Option (String × String))
    (s : Spell)
    (hs : Event.proveEv s ∈
      (checkinRun env appRef (some vault) vaultId vaultValue wallet).2) :
    ∀ i ∈ s.ins, ∀ c, i.charms = some c →
      c.last_checkin_block = vault.createdBlock := by
  unfold checkinRun at hs
  repeat' split at hs
  all_goals simp_all [buildCheckinSpell, rebuildVaultCharm]

theorem updateBeneficiariesRun_proveEv (env : OpEnv) (appRef : String)
    (newBeneficiaries : List Beneficiary) (vault : Vault) (vaultId : String)
    (vaultValue : Int) (wallet : Option (String × String)) (s : Spell)
    (hs : Event.proveEv s ∈
      (updateBeneficiariesRun env appRef newBeneficiaries (some vault) vaultId
        vaultValue wallet).2) :
    ∀ i ∈ s.ins, ∀ c, i.charms = some c →
      c.last_checkin_block = vault.createdBlock := by
  unfold updateBeneficiariesRun at hs
  repeat' split at hs
  all_goals simp_all [buildUpdateBeneficiariesSpell, rebuildVaultCharm]

theorem buildDistributeSpell_ok_ins (appRef : String) (vaultUTXO : UTXO)
    (vaultCharm : InheritanceContent) (currentBlock : Int) (s : Spell)
    (h : buildDistributeSpell appRef vaultUTXO vaultCharm currentBlock =
      Except.ok s) :
    s.ins = [{ utxo_id := formatUtxoId vaultUTXO.txid vaultUTXO.vout,
               charms := some vaultCharm }] := by
  by_cases hc : currentBlock ≤
      vaultCharm.last_checkin_block + vaultCharm.trigger_delay_blocks
  · simp [buildDistributeSpell, hc] at h
  · rw [buildDistributeSpell_outs appRef vaultUTXO vaultCharm currentBlock
      (by omega)] at h
    injection h with h'
    subst h'
    rfl

theorem distributeRun_proveEv (env : OpEnv) (appRef : String) (vault : Vault)
    (vaultId : String) (vaultValue : Int) (wallet : Option (String × String))
    (s : Spell)
    (hs : Event.proveEv s ∈
      (distributeRun env appRef (some vault) vaultId vaultValue wallet).2) :
    ∀ i ∈ s.ins, ∀ c, i.charms = some c →
      c.last_checkin_block = vault.createdBlock := by
  unfold distributeRun at hs
  repeat' split at hs
  all_goals try simp_all [rebuildVaultCharm]
  all_goals
    revert hs
  all_goals
    split
  all_goals
    intro hs
  all_goals
    first
    | (simp_all; done)
    | (rename_i spell heq
       have hseq : s = spell := by simp_all
       subst hseq
       rw [buildDistributeSpell_ok_ins _ _ _ _ _ heq]
       intro i hi c hc
       simp only [List.mem_singleton] at hi
       subst hi
       injection hc with h'
       subst h'
       rfl)

/-- Claim C10: no record mutation (check-in, beneficiary update,
distribution, or any sequence of them) ever changes `createdBlock`; the
charm reconstructed for an existing vault always carries
`last_checkin_block = createdBlock`; and in every operation run on an
existing vault, every input charm of the spell handed to the prover has
`last_checkin_block = createdBlock` — even though a check-in advances the
record's `unlockBlock` to `currentBlock + triggerDelayBlocks`. -/
theorem c10_charm_from_created_block (v : Vault) (ops : List VaultOp)
    (b : Int) :
    ((ops.foldl applyVaultOp v).createdBlock = v.createdBlock ∧
      (rebuildVaultCharm (ops.foldl applyVaultOp v)).last_checkin_block =
        v.createdBlock) ∧
    (applyCheckin v b).unlockBlock = b + v.triggerDelayBlocks ∧
    (∀ (env : OpEnv) (appRef vaultId : String) (vaultValue : Int)
        (wallet : Option (String × String)) (s : Spell),
      Event.proveEv s ∈
        (checkinRun env appRef (some v) vaultId vaultValue wallet).2 →
      ∀ i ∈ s.ins, ∀ c, i.charms = some c →
        c.last_checkin_block = v.createdBlock) ∧
    (∀ (env : OpEnv) (appRef : String) (newBens : List Beneficiary)
        (vaultId : String) (vaultValue : Int)
        (wallet : Option (String × String)) (s : Spell),
      Event.proveEv s ∈
        (updateBeneficiariesRun env appRef newBens (some v) vaultId vaultValue
          wallet).2 →
      ∀ i ∈ s.ins, ∀ c, i.charms = some c →
        c.last_checkin_block = v.createdBlock) ∧
    (∀ (env : OpEnv) (appRef vaultId : String) (vaultValue : Int)
        (wallet : Option (String × String)) (s : Spell),
      Event.proveEv s ∈
        (distributeRun env appRef (some v) vaultId vaultValue wallet).2 →
      ∀ i ∈ s.ins, ∀ c, i.charms = some c →
        c.last_checkin_block = v.createdBlock) := by
  refine ⟨⟨foldl_applyVaultOp_createdBlock ops v, ?_⟩, rfl, ?_, ?_, ?_⟩
  · rw [rebuildVaultCharm, foldl_applyVaultOp_createdBlock ops v]
  · intro env appRef vaultId vaultValue wallet s hs
    exact checkinRun_proveEv env appRef v vaultId vaultValue wallet s hs
  · intro env appRef newBens vaultId vaultValue wallet s hs
    exact updateBeneficiariesRun_proveEv env appRef newBens v vaultId
      vaultValue wallet s hs
  · intro env appRef vaultId vaultValue wallet s hs
    exact distributeRun_proveEv env appRef v vaultId vaultValue wallet s hs

/-- Witness for C10: after a check-in at block 200 and a beneficiary update
at block 300 of `vaultC2` (created at block 100), `createdBlock` is still
100, and the input charm of the spell a concrete check-in run at block 200
hands to the prover carries `last_checkin_block = 100`, not 200. -/
theorem c10_charm_from_created_block_witness :
    (([VaultOp.checkinOp 200, VaultOp.updateOp bens6040 300].foldl
        applyVaultOp vaultC2).createdBlock = vaultC2.createdBlock ∧
      (rebuildVaultCharm ([VaultOp.checkinOp 200,
          VaultOp.updateOp bens6040 300].foldl applyVaultOp
            vaultC2)).last_checkin_block = vaultC2.createdBlock) ∧
    (applyCheckin vaultC2 200).unlockBlock = 200 + vaultC2.triggerDelayBlocks ∧
    ∀ i ∈ (buildCheckinSpell "app"
        { txid := "t", vout := 0, value := 100000, scriptPubKey := "" }
        (rebuildVaultCharm vaultC2) "pk" 200 "addr").ins,
      ∀ c, i.charms = some c → c.last_checkin_block = vaultC2.createdBlock :=
  ⟨(c10_charm_from_created_block vaultC2
      [VaultOp.checkinOp 200, VaultOp.updateOp bens6040 300] 200).1,
   (c10_charm_from_created_block vaultC2
      [VaultOp.checkinOp 200, VaultOp.updateOp bens6040 300] 200).2.1,
   (c10_charm_from_created_block vaultC2
      [VaultOp.checkinOp 200, VaultOp.updateOp bens6040 300] 200).2.2.1
     (opEnvAt 200) "app" "t:0" 100000 (some ("pk", "addr"))
     (buildCheckinSpell "app"
       { txid := "t", vout := 0, value := 100000, scriptPubKey := "" }
       (rebuildVaultCharm vaultC2) "pk" 200 "addr") (by decide)⟩

/-- Claim C1 is violated by the code: in the create-vault flow both
`broadcastPackage` calls submit the prover's spell transaction hex
unchanged (`"s0"` twice: the direct attempt and the wallet-signing
fallback, vaultService.ts lines 198 and 227-232), but `checkin`,
`updateBeneficiaries` and `distribute` pass the spell transaction through
the wallet's `signTransaction` (lines 368, 466, 557) and broadcast the
wallet's output, which differs from the hex received from the proof
service. -/
theorem c1_spell_tx_passthrough_violated :
    broadcastSpellArgs (createVaultRun createEnvFallback "app" 4000 bens6040
      10 (some ("pk", "addr")) [utxoA, utxoB] (fun _ => none) 0 []).2.2 =
      ["s0", "s0"] ∧
    broadcastSpellArgs (checkinRun (opEnvAt 200) "app" (some vaultC2) "t:0"
      100000 (some ("pk", "addr"))).2 = ["wallet:s0"] ∧
    broadcastSpellArgs (updateBeneficiariesRun (opEnvAt 200) "app" bens6040
      (some vaultC2) "t:0" 100000 (some ("pk", "addr"))).2 = ["wallet:s0"] ∧
    broadcastSpellArgs (distributeRun (opEnvAt 151) "app" (some vaultC2)
      "t:0" 100000 (some ("pk", "addr"))).2 = ["wallet:s0"] ∧
    ("wallet:s0" : String) ≠ "s0" :=
  ⟨by decide, by decide, by decide, by decide, by decide⟩
